import Mathlib

/-!
Verification of the ACRemoteProtocol repository: a shallow embedding in
Lean 4 of its Rust source (an air-conditioner infrared remote encoder),
with theorems settling the specification's claims about it.

Machine integers (`u8`, `u32`, `u64`) are modelled as `Nat`; wrapping
behaviour is made explicit with `% 256` (and wrapping subtraction with
`x + 256 - y` followed by `% 256`) exactly where the Rust operation can
wrap.  Rust's `Option` maps to Lean's `Option`; early `return None`
paths become `none` branches of a match.
-/

/-- Function `bitreverse` from `src/common/utils.rs`:
`(0..8_u8).fold(0, |acc, i| acc | (x >> i & 1) << (7 - i))`. -/
def bitreverse (x : Nat) : Nat :=
  (List.range 8).foldl (fun acc i => acc ||| (((x >>> i) &&& 1) <<< (7 - i))) 0

/-- Enum `EliosFanSpeed` from `src/elios/state.rs` (also `src/elios/fan.rs`). -/
inductive EliosFanSpeed
  | Off
  | Automatic
  | Low
  | Medium
  | High
  deriving DecidableEq, Repr

/-- The discriminant values of `EliosFanSpeed` (`Off = 0b000`,
`Automatic = 0b100`, `Low = 0b001`, `Medium = 0b010`, `High = 0b011`),
used by `as u8` casts in the Rust source. -/
def EliosFanSpeed.code : EliosFanSpeed → Nat
  | .Off => 0b000
  | .Automatic => 0b100
  | .Low => 0b001
  | .Medium => 0b010
  | .High => 0b011

/-- Enum `EliosMode` from `src/elios/state.rs` (also `src/elios/mode.rs`). -/
inductive EliosMode
  | Cold
  | Dry
  | Automatic
  | Heat
  | Fan
  deriving DecidableEq, Repr

/-- The discriminant values of `EliosMode` (`Cold = 0b000`, `Dry = 0b001`,
`Automatic = 0b010`, `Heat = 0b011`, `Fan = 0b100`). -/
def EliosMode.code : EliosMode → Nat
  | .Cold => 0b000
  | .Dry => 0b001
  | .Automatic => 0b010
  | .Heat => 0b011
  | .Fan => 0b100

/-- Enum `Temperature` from `src/common/temperature.rs`: a `u8` degree value
tagged with its unit. -/
inductive Temperature
  | Celcius (temp : Nat)
  | Fahrenheit (temp : Nat)
  deriving DecidableEq, Repr

/-- Method `Temperature::as_fahrenheit` from `src/common/temperature.rs`:
`Celcius(temp) => Fahrenheit(temp * 9 / 5 + 32)`, identity on
`Fahrenheit`.  The multiplication is performed in `u8`, hence the
`% 256`; the division and the final addition cannot wrap (the result of
`_ / 5 + 32` is at most `255 / 5 + 32 = 83`). -/
def Temperature.as_fahrenheit : Temperature → Temperature
  | .Celcius temp => .Fahrenheit ((temp * 9 % 256) / 5 + 32)
  | .Fahrenheit temp => .Fahrenheit temp

/-- Method `Temperature::as_celcius` from `src/common/temperature.rs`:
`Fahrenheit(temp) => Celcius((temp - 32) * 5 / 9)`, identity on
`Celcius`.  Both the subtraction and the multiplication are performed in
`u8`, hence the wrapping subtraction and the `% 256`. -/
def Temperature.as_celcius : Temperature → Temperature
  | .Celcius temp => .Celcius temp
  | .Fahrenheit temp => .Celcius (((temp + 256 - 32) % 256) * 5 % 256 / 9)

-- Constants from `src/elios/state.rs`.

def MIN_CELCIUS : Nat := 17
def MAX_CELCIUS : Nat := 30
def MIN_FAHRENHEIT : Nat := 62
def MAX_FAHRENHEIT : Nat := 86
def FAN_TEMPERATURE : Nat := 0b11110

/-- The `EliosState` struct from `src/elios/state.rs`. -/
structure EliosState where
  fan_speed : EliosFanSpeed
  mode : EliosMode
  temperature : Temperature
  powered : Bool
  sleep : Bool
  deriving DecidableEq, Repr

/-- Constructor `EliosState::new` from `src/elios/state.rs`, lines 39–88.  The two
`return None` early exits become `none` results threaded through
`Option.bind`-style matches; the control flow is otherwise verbatim:
first the temperature is validated (fan mode forbids a temperature and
substitutes `MIN_CELCIUS + FAN_TEMPERATURE`; every other mode requires
one and clamps it with `temp.min(MAX).max(MIN)` in its own unit), then
the fan speed (forced to `Off` for `Automatic`/`Dry`, rejecting an
explicit non-`Off` request; defaulted to `Automatic` elsewhere), then
the sleep flag is gated to the modes `Cold`, `Heat`, `Automatic`. -/
def EliosState.new (fan_speed : Option EliosFanSpeed) (mode : EliosMode)
    (temperature : Option Temperature) (powered : Bool) (sleep : Bool) :
    Option EliosState :=
  let temperatureResult : Option Temperature :=
    if mode = EliosMode.Fan then
      match temperature with
      | some _ => none
      | none => some (.Celcius (MIN_CELCIUS + FAN_TEMPERATURE))
    else
      match temperature with
      | none => none
      | some (.Celcius temp) =>
          some (.Celcius (Nat.max (Nat.min temp MAX_CELCIUS) MIN_CELCIUS))
      | some (.Fahrenheit temp) =>
          some (.Fahrenheit (Nat.max (Nat.min temp MAX_FAHRENHEIT) MIN_FAHRENHEIT))
  match temperatureResult with
  | none => none
  | some temperature =>
    let fanResult : Option EliosFanSpeed :=
      match mode with
      | .Automatic | .Dry =>
          match fan_speed with
          | some fs => if fs ≠ EliosFanSpeed.Off then none else some .Off
          | none => some .Off
      | _ => some (fan_speed.getD .Automatic)
    match fanResult with
    | none => none
    | some fan =>
      let sleep := sleep &&
        (mode = EliosMode.Cold || mode = EliosMode.Heat || mode = EliosMode.Automatic)
      some { fan_speed := fan, mode, temperature, powered, sleep }

/-- Method `EliosState::as_raw_parts` from `src/elios/state.rs`, lines 90–116,
as the 5-element list of payload bytes.  Byte 2's `temp - MIN` is a
`u8` subtraction, modelled as wrapping subtraction (`% 256`); every
other operation cannot wrap. -/
def EliosState.as_raw_parts (s : EliosState) : List Nat :=
  [ 0b10100001,
    ((if s.powered then 1 else 0) <<< 7) |||
      ((if s.sleep then 1 else 0) <<< 6) |||
      (s.fan_speed.code <<< 3) ||| s.mode.code,
    (1 <<< 6) |||
      (match s.temperature with
       | .Celcius temp => (temp + 256 - MIN_CELCIUS) % 256
       | .Fahrenheit temp => ((temp + 256 - MIN_FAHRENHEIT) % 256) ||| (1 <<< 5)),
    0b11111111,
    0b11111111 ]

/-- Function `EliosState::checksum` from `src/elios/state.rs`, lines 118–133.
`!sum_nibble` is `u8` bitwise negation (`^^^ 255`) and the `<< 4` wraps,
hence the `% 256`. -/
def EliosState.checksum (data : List Nat) : Nat :=
  let d := data.map bitreverse
  let xor_nibble :=
    ((d.getD 0 0) ^^^ (d.getD 1 0) ^^^ (d.getD 2 0) ^^^ 0b100 ^^^
      (if ((d.getD 1 0) >>> 2) &&& 0b111 = 0 then 0b1000 else 0)) &&& 0xf
  let sum_nibble :=
    (((d.getD 0 0) >>> 4) + ((d.getD 1 0) >>> 4) + ((d.getD 2 0) >>> 4) +
      (((d.getD 2 0) >>> 3) &&& 1)) &&& 0xf
  let value := ((((sum_nibble ^^^ 255) <<< 4) % 256) ||| xor_nibble)
  bitreverse value

/-- Method `EliosState::as_value` from `src/elios/state.rs`, lines 135–140:
`data.iter().fold(0, |acc, x| acc << 8 | *x as u64) << 8 | checksum`.
The fold is over the 5 payload bytes in a `u64`, which cannot wrap for a
48-bit result. -/
def EliosState.as_value (s : EliosState) : Nat :=
  let data := s.as_raw_parts
  let checksum := EliosState.checksum data
  ((data.foldl (fun acc x => (acc <<< 8) ||| x) 0) <<< 8) ||| checksum

/-- Struct `InfraredProtocol` from `src/common/infrared.rs`: the six `u32`
timing-table durations in microseconds. -/
structure InfraredProtocol where
  leading_pulse : Nat
  leading_gap : Nat
  one_pulse : Nat
  one_gap : Nat
  zero_pulse : Nat
  zero_gap : Nat
  deriving DecidableEq, Repr

/-- Method `InfraredProtocol::encode` from `src/common/infrared.rs`, lines
19–36: a buffer starting with the leading pulse and gap, extended by
the one-pulse/one-gap pair for each set bit and the zero-pulse/zero-gap
pair for each clear bit, in sequence order.  The `BitVec` argument is
modelled as a `List Bool`. -/
def InfraredProtocol.encode (p : InfraredProtocol) (data : List Bool) : List Nat :=
  data.foldl
    (fun buffer value =>
      buffer ++ (if value then [p.one_pulse, p.one_gap] else [p.zero_pulse, p.zero_gap]))
    [p.leading_pulse, p.leading_gap]

/-! The crate root `src/lib.rs` contains an older, self-contained copy of
the same state machinery (`FanSpeed`, `Mode`, `Temperature`, `clamp`,
`checksum`, `bitreverse`, `State`).  It is embedded separately below, in
the `Lib` namespace, so that the two copies can be compared. -/

namespace Lib

/-- Enum `FanSpeed` from `src/lib.rs` (same variants and discriminants as
`EliosFanSpeed`). -/
inductive FanSpeed
  | Off
  | Automatic
  | Low
  | Medium
  | High
  deriving DecidableEq, Repr

/-- Discriminants of `Lib.FanSpeed`. -/
def FanSpeed.code : FanSpeed → Nat
  | .Off => 0b000
  | .Automatic => 0b100
  | .Low => 0b001
  | .Medium => 0b010
  | .High => 0b011

/-- Enum `Mode` from `src/lib.rs`. -/
inductive Mode
  | Cold
  | Dry
  | Automatic
  | Heat
  | Fan
  deriving DecidableEq, Repr

/-- Discriminants of `Lib.Mode`. -/
def Mode.code : Mode → Nat
  | .Cold => 0b000
  | .Dry => 0b001
  | .Automatic => 0b010
  | .Heat => 0b011
  | .Fan => 0b100

/-- Enum `Temperature` from `src/lib.rs`. -/
inductive Temperature
  | Celcius (temp : Nat)
  | Fahrenheit (temp : Nat)
  deriving DecidableEq, Repr

/-- Function `bitreverse` from `src/lib.rs` (textually identical to the one in
`src/common/utils.rs`). -/
def bitreverse (x : Nat) : Nat :=
  (List.range 8).foldl (fun acc i => acc ||| (((x >>> i) &&& 1) <<< (7 - i))) 0

/-- Function `clamp` from `src/lib.rs`:
`temp.min(MAX).max(MIN)` in the temperature's own unit. -/
def clamp : Temperature → Temperature
  | .Celcius temp => .Celcius (Nat.max (Nat.min temp MAX_CELCIUS) MIN_CELCIUS)
  | .Fahrenheit temp => .Fahrenheit (Nat.max (Nat.min temp MAX_FAHRENHEIT) MIN_FAHRENHEIT)

/-- Function `checksum` from `src/lib.rs`, lines 39–48.  Unlike
`EliosState::checksum` it has no conditional `0b1000` term in the XOR
nibble and no `data[2] >> 3 & 1` term in the sum nibble. -/
def checksum (data : List Nat) : Nat :=
  let d := data.map bitreverse
  let left := ((d.getD 0 0) ^^^ (d.getD 1 0) ^^^ (d.getD 2 0) ^^^ 0b100) &&& 0xf
  let right := (((d.getD 0 0) >>> 4) + ((d.getD 1 0) >>> 4) + ((d.getD 2 0) >>> 4)) &&& 0xf
  let value := ((((right ^^^ 255) <<< 4) % 256) ||| left)
  bitreverse value

/-- The `State` struct from `src/lib.rs`. -/
structure State where
  fan_speed : FanSpeed
  mode : Mode
  temperature : Temperature
  powered : Bool
  sleep : Bool
  deriving DecidableEq, Repr

/-- Constructor `State::new` from `src/lib.rs`: same control flow as
`EliosState::new`, with the clamp factored through `Lib.clamp`. -/
def State.new (fan_speed : Option FanSpeed) (mode : Mode)
    (temperature : Option Temperature) (powered : Bool) (sleep : Bool) :
    Option State :=
  let temperatureResult : Option Temperature :=
    if mode = Mode.Fan then
      match temperature with
      | some _ => none
      | none => some (.Celcius (MIN_CELCIUS + FAN_TEMPERATURE))
    else
      match temperature with
      | none => none
      | some t => some (clamp t)
  match temperatureResult with
  | none => none
  | some temperature =>
    let fanResult : Option FanSpeed :=
      match mode with
      | .Automatic | .Dry =>
          match fan_speed with
          | some fs => if fs ≠ FanSpeed.Off then none else some .Off
          | none => some .Off
      | _ => some (fan_speed.getD .Automatic)
    match fanResult with
    | none => none
    | some fan =>
      let sleep := sleep &&
        (mode = Mode.Cold || mode = Mode.Heat || mode = Mode.Automatic)
      some { fan_speed := fan, mode, temperature, powered, sleep }

/-- Method `State::as_raw_parts` from `src/lib.rs` (textually identical to
`EliosState::as_raw_parts`). -/
def State.as_raw_parts (s : State) : List Nat :=
  [ 0b10100001,
    ((if s.powered then 1 else 0) <<< 7) |||
      ((if s.sleep then 1 else 0) <<< 6) |||
      (s.fan_speed.code <<< 3) ||| s.mode.code,
    (1 <<< 6) |||
      (match s.temperature with
       | .Celcius temp => (temp + 256 - MIN_CELCIUS) % 256
       | .Fahrenheit temp => ((temp + 256 - MIN_FAHRENHEIT) % 256) ||| (1 <<< 5)),
    0b11111111,
    0b11111111 ]

/-- Method `State::as_value` from `src/lib.rs`, lines 137–142, using the
free-function `Lib.checksum`. -/
def State.as_value (s : State) : Nat :=
  let data := s.as_raw_parts
  let checksum := Lib.checksum data
  ((data.foldl (fun acc x => (acc <<< 8) ||| x) 0) <<< 8) ||| checksum

end Lib

/-! ## Claim-side definitions

Definitions below are written from the specification's wording, to be
compared with the embeddings of the source above. -/

/-- Checksum following the wording of the specification (claim C1):
bit-reverse the first three payload bytes to `r0, r1, r2`; set
`extra = 0b1000` exactly when `(r1 >> 2) & 0b111` is zero;
`xor_nibble = (r0 XOR r1 XOR r2 XOR 0b0100 XOR extra) & 0xF`;
`sum_nibble = ((r0>>4) + (r1>>4) + (r2>>4) + ((r2>>3)&1)) & 0xF`;
`checksum_value = ((NOT sum_nibble) << 4 | xor_nibble)` truncated to one
byte (`NOT` being the 8-bit complement `255 - _`); result is the
bit-reversal of `checksum_value`. -/
def checksum_from_spec (b0 b1 b2 : Nat) : Nat :=
  let r0 := bitreverse b0
  let r1 := bitreverse b1
  let r2 := bitreverse b2
  let extra := if (r1 >>> 2) &&& 0b111 = 0 then 0b1000 else 0
  let xor_nibble := (r0 ^^^ r1 ^^^ r2 ^^^ 0b0100 ^^^ extra) &&& 0xf
  let sum_nibble := ((r0 >>> 4) + (r1 >>> 4) + (r2 >>> 4) + ((r2 >>> 3) &&& 1)) &&& 0xf
  let checksum_value := (((255 - sum_nibble) <<< 4) ||| xor_nibble) % 256
  bitreverse checksum_value

/-- Value of a byte list read as a big-endian base-256 numeral: the
"48-bit unsigned integer formed by concatenating the bytes,
most-significant byte first" of the specification (claim C3). -/
def concat_bytes (bs : List Nat) : Nat := bs.foldl (fun acc b => acc * 256 + b) 0

/-- Timing pair chosen by `InfraredProtocol::encode` for one bit. -/
def symbolTimings (p : InfraredProtocol) (value : Bool) : List Nat :=
  if value then [p.one_pulse, p.one_gap] else [p.zero_pulse, p.zero_gap]

/-! ## Helper lemmas -/

/-- Or-ing a power of two with a smaller number is addition. -/
theorem two_pow_or_eq_add {b : Nat} (i : Nat) (h : b < 2 ^ i) :
    (2 ^ i) ||| b = 2 ^ i + b := by
  have := Nat.mul_add_lt_is_or h 1
  simpa [Nat.mul_one] using this.symm

/-- Appending a byte with `<<< 8 |||` is base-256 concatenation. -/
theorem shiftLeft_or_byte (a : Nat) {x : Nat} (h : x < 256) :
    (a <<< 8) ||| x = a * 256 + x := by
  have h' : x < 2 ^ 8 := by omega
  have := Nat.mul_add_lt_is_or h' a
  rw [Nat.shiftLeft_eq, Nat.mul_comm, ← this]

/-- Or of two bytes is a byte. -/
theorem or_lt_256 {a b : Nat} (ha : a < 256) (hb : b < 256) : a ||| b < 256 := by
  have h := @Nat.or_lt_two_pow a b 8 (by simpa using ha) (by simpa using hb)
  simpa using h

theorem and_64_eq_zero : ∀ x < 64, x &&& 64 = 0 := by decide

theorem or_64_eq_add : ∀ x < 64, 64 ||| x = 64 + x := by decide

theorem or_32_eq_add : ∀ x < 32, x ||| 32 = x + 32 := by decide

/-- Nibble-level comparison of the two `checksum_value` formulations:
the source's `u8` expression `(!s << 4) | x` (wrapping at each step)
against the specification's `((255 - s) << 4 | x)` truncated at the
end. -/
theorem value_nibble_eq : ∀ s < 16, ∀ x < 16,
    (((s ^^^ 255) <<< 4) % 256) ||| x = (((255 - s) <<< 4) ||| x) % 256 := by decide

/-- Result of `bitreverse` always fits in a byte. -/
theorem bitreverse_lt (x : Nat) : bitreverse x < 256 := by
  have hbit : ∀ i : Nat, ((x >>> i) &&& 1) <<< (7 - i) < 256 := by
    intro i
    have h1 : (x >>> i) &&& 1 ≤ 1 := Nat.and_le_right
    have h3 : (2 : Nat) ^ (7 - i) ≤ 2 ^ 7 := Nat.pow_le_pow_right (by omega) (by omega)
    calc ((x >>> i) &&& 1) <<< (7 - i) = ((x >>> i) &&& 1) * 2 ^ (7 - i) :=
          Nat.shiftLeft_eq _ _
      _ ≤ 1 * 2 ^ (7 - i) := Nat.mul_le_mul_right _ h1
      _ ≤ 2 ^ 7 := by simpa using h3
      _ < 256 := by omega
  simp only [bitreverse, List.range_succ, List.range_zero, List.nil_append,
    List.foldl_append, List.foldl_cons, List.foldl_nil]
  repeat' apply or_lt_256
  all_goals first | decide | exact hbit _

/-- The checksum byte fits in a byte. -/
theorem checksum_lt (data : List Nat) : EliosState.checksum data < 256 := by
  unfold EliosState.checksum
  exact bitreverse_lt _

/-- Every payload byte produced by `as_raw_parts` fits in a byte. -/
theorem as_raw_parts_bytes_lt (s : EliosState) : ∀ b ∈ s.as_raw_parts, b < 256 := by
  intro b hb
  have hmem : b = 0b10100001 ∨
      b = (((if s.powered then 1 else 0) <<< 7) ||| ((if s.sleep then 1 else 0) <<< 6) |||
        (s.fan_speed.code <<< 3) ||| s.mode.code) ∨
      b = ((1 <<< 6) |||
        (match s.temperature with
         | .Celcius temp => (temp + 256 - MIN_CELCIUS) % 256
         | .Fahrenheit temp => ((temp + 256 - MIN_FAHRENHEIT) % 256) ||| (1 <<< 5))) ∨
      b = 0b11111111 ∨ b = 0b11111111 := by
    simpa [EliosState.as_raw_parts] using hb
  rcases hmem with rfl | rfl | rfl | rfl | rfl
  · decide
  · cases s.powered <;> cases s.sleep <;> cases s.fan_speed <;> cases s.mode <;> decide
  · apply or_lt_256 (by decide)
    cases s.temperature with
    | Celcius temp => exact Nat.mod_lt _ (by decide)
    | Fahrenheit temp => exact or_lt_256 (Nat.mod_lt _ (by decide)) (by decide)
  · decide
  · decide

/-- Unfolding `concat_bytes` over a final appended byte. -/
theorem concat_bytes_append (bs : List Nat) (c : Nat) :
    concat_bytes (bs ++ [c]) = concat_bytes bs * 256 + c := by
  simp [concat_bytes]

/-- On byte lists, the source's shift-or fold agrees with the base-256
fold. -/
theorem foldl_shift_eq_concat (bs : List Nat) (h : ∀ b ∈ bs, b < 256) (acc : Nat) :
    bs.foldl (fun acc x => (acc <<< 8) ||| x) acc =
      bs.foldl (fun acc x => acc * 256 + x) acc := by
  induction bs generalizing acc with
  | nil => rfl
  | cons b bs ih =>
      simp only [List.foldl_cons]
      rw [shiftLeft_or_byte _ (h b (by simp)), ih (fun c hc => h c (by simp [hc]))]

/-- Folding the encoder's buffer-append step from any starting buffer
produces that buffer followed by the per-bit timing pairs. -/
theorem encode_foldl_acc (p : InfraredProtocol) (data : List Bool) (acc : List Nat) :
    data.foldl (fun buffer value => buffer ++ symbolTimings p value) acc =
      acc ++ data.flatMap (symbolTimings p) := by
  induction data generalizing acc with
  | nil => simp
  | cons b bs ih => simp [ih, List.append_assoc]

set_option maxHeartbeats 1600000 in
/-- Inversion of `EliosState.new`: the stored temperature of any
successfully constructed state is the fan-mode constant `Celcius 47`
(exactly when the mode is `Fan`), a Celsius value clamped into
`[17, 30]`, or a Fahrenheit value clamped into `[62, 86]`. -/
theorem new_temperature_shape (fan_speed : Option EliosFanSpeed) (mode : EliosMode)
    (temperature : Option Temperature) (powered sleep : Bool) (st : EliosState)
    (h : EliosState.new fan_speed mode temperature powered sleep = some st) :
    (mode = EliosMode.Fan ∧ st.temperature = .Celcius 47) ∨
    (∃ t, st.temperature = .Celcius t ∧ 17 ≤ t ∧ t ≤ 30) ∨
    (∃ t, st.temperature = .Fahrenheit t ∧ 62 ≤ t ∧ t ≤ 86) := by
  cases mode <;> rcases temperature with _ | (t | t) <;> rcases fan_speed with _ | f <;>
      (try cases f) <;> simp [EliosState.new] at h <;>
    simp [← h, MIN_CELCIUS, MAX_CELCIUS, MIN_FAHRENHEIT, MAX_FAHRENHEIT, FAN_TEMPERATURE]

/-- The options byte packs its four fields in disjoint bit ranges, so
the source's shift-or expression equals the weighted sum. -/
theorem options_byte_eq (p sl : Bool) (f : EliosFanSpeed) (m : EliosMode) :
    (((if p then 1 else 0) <<< 7) ||| ((if sl then 1 else 0) <<< 6) |||
      (f.code <<< 3) ||| m.code) =
    (if p then 128 else 0) + (if sl then 64 else 0) + f.code * 8 + m.code := by
  cases p <;> cases sl <;> cases f <;> cases m <;> decide

/-! ## Claim theorems -/

/-- Claim C1: for every 5-byte payload, `EliosState::checksum` computes
exactly the specification's algorithm: bit-reverse the first three
payload bytes to `r0, r1, r2`; `xor_nibble = (r0 XOR r1 XOR r2 XOR
0b0100 XOR extra) & 0xF` with `extra = 0b1000` exactly when
`(r1 >> 2) & 0b111 = 0`; `sum_nibble = ((r0>>4) + (r1>>4) + (r2>>4) +
((r2>>3)&1)) & 0xF`; `checksum_value = ((NOT sum_nibble) << 4 |
xor_nibble)` truncated to one byte; and the checksum byte is the
bit-reversal of `checksum_value`. -/
theorem C1_checksum_algorithm (b0 b1 b2 b3 b4 : Nat) :
    EliosState.checksum [b0, b1, b2, b3, b4] = checksum_from_spec b0 b1 b2 := by
  unfold EliosState.checksum checksum_from_spec
  simp only [List.map_cons, List.map_nil, List.getD_cons_zero, List.getD_cons_succ]
  congr 1
  exact value_nibble_eq _ (Nat.lt_succ_of_le Nat.and_le_right)
    _ (Nat.lt_succ_of_le Nat.and_le_right)

/-- Claim C2: `EliosState::new` returns `none` if and only if the mode
is `Fan` and a temperature was supplied, or the mode is not `Fan` and no
temperature was supplied, or the mode is `Automatic` or `Dry` and a fan
speed other than `Off` was explicitly supplied; in every other case it
returns `some` state (the equivalence, over the total function
`EliosState.new`, covers both directions, and totality is the
never-panics part of the claim). -/
theorem C2_new_rejects_iff (fan_speed : Option EliosFanSpeed) (mode : EliosMode)
    (temperature : Option Temperature) (powered sleep : Bool) :
    EliosState.new fan_speed mode temperature powered sleep = none ↔
      (mode = EliosMode.Fan ∧ temperature.isSome) ∨
      (mode ≠ EliosMode.Fan ∧ temperature = none) ∨
      ((mode = EliosMode.Automatic ∨ mode = EliosMode.Dry) ∧
        ∃ f, fan_speed = some f ∧ f ≠ EliosFanSpeed.Off) := by
  cases mode <;> rcases temperature with _ | (t | t) <;> rcases fan_speed with _ | f <;>
      (try cases f) <;> simp [EliosState.new]

/-- Claim C3: `as_value` returns the 48-bit unsigned integer formed by
concatenating the 5 payload bytes followed by the checksum byte,
most-significant byte first; in particular, the state built from
`Mode=Cold, fan=Automatic, Celsius 17, powered, not sleeping` yields
`0b10100001_10100000_01000000_11111111_11111111_01101110` and the state
built from `Mode=Fan, fan=Automatic, no temperature, powered, not
sleeping` yields
`0b10100001_10100100_01011110_11111111_11111111_01111011`. -/
theorem C3_as_value_concatenation :
    (∀ s : EliosState,
      s.as_value = concat_bytes (s.as_raw_parts ++ [EliosState.checksum s.as_raw_parts])) ∧
    (EliosState.new (some .Automatic) .Cold (some (.Celcius 17)) true false).map
        EliosState.as_value = some 177709657358190 ∧
    (EliosState.new (some .Automatic) .Fan none true false).map
        EliosState.as_value = some 177727340543867 := by
  refine ⟨fun s => ?_, by decide, by decide⟩
  show (s.as_raw_parts.foldl (fun acc x => (acc <<< 8) ||| x) 0) <<< 8 |||
      EliosState.checksum s.as_raw_parts = _
  rw [concat_bytes_append, foldl_shift_eq_concat _ (as_raw_parts_bytes_lt s) 0,
    shiftLeft_or_byte _ (checksum_lt _)]
  rfl

/-- Claim C4: for every state admitted by `EliosState::new`, the payload
is: byte 0 the fixed header `0b10100001`; byte 1 `powered` in bit 7,
`sleep` in bit 6, the fan-speed code in bits 5–3 and the mode code in
bits 2–0; byte 2 the fixed bit 6 plus the temperature offset
(`degrees - 17` for Celsius, `degrees - 62` with bit 5 set for
Fahrenheit); bytes 3 and 4 all-ones sentinels. -/
theorem C4_payload_layout (fan_speed : Option EliosFanSpeed) (mode : EliosMode)
    (temperature : Option Temperature) (powered sleep : Bool) (st : EliosState)
    (h : EliosState.new fan_speed mode temperature powered sleep = some st) :
    st.as_raw_parts =
      [ 0b10100001,
        (if st.powered then 128 else 0) + (if st.sleep then 64 else 0) +
          st.fan_speed.code * 8 + st.mode.code,
        64 + (match st.temperature with
              | .Celcius t => t - 17
              | .Fahrenheit t => (t - 62) + 32),
        0b11111111, 0b11111111 ] := by
  have hshape := new_temperature_shape _ _ _ _ _ _ h
  have h6 : (1 : Nat) <<< 6 = 64 := rfl
  have h5 : (1 : Nat) <<< 5 = 32 := rfl
  have hb2 : ((1 : Nat) <<< 6) |||
      (match st.temperature with
       | .Celcius temp => (temp + 256 - MIN_CELCIUS) % 256
       | .Fahrenheit temp => ((temp + 256 - MIN_FAHRENHEIT) % 256) ||| (1 <<< 5)) =
      64 + (match st.temperature with
            | .Celcius t => t - 17
            | .Fahrenheit t => (t - 62) + 32) := by
    rcases hshape with ⟨hm, h47⟩ | ⟨t, ht, h1, h2⟩ | ⟨t, ht, h1, h2⟩
    · rw [h47]; decide
    · rw [ht]
      have hmod : (t + 256 - MIN_CELCIUS) % 256 = t - 17 := by
        simp only [MIN_CELCIUS]; omega
      simp only [hmod, h6]
      exact or_64_eq_add _ (by omega)
    · rw [ht]
      have hmod : (t + 256 - MIN_FAHRENHEIT) % 256 = t - 62 := by
        simp only [MIN_FAHRENHEIT]; omega
      simp only [hmod, h6, h5, or_32_eq_add _ (show t - 62 < 32 by omega)]
      exact or_64_eq_add _ (by omega)
  unfold EliosState.as_raw_parts
  rw [options_byte_eq st.powered st.sleep st.fan_speed st.mode, hb2]

/-- Witness for C4: the Cold/Automatic/Celsius-17/powered state has
payload `[0b10100001, 0b10100000, 0b01000000, 0xFF, 0xFF]`. -/
theorem C4_payload_layout_witness :
    ({ fan_speed := .Automatic, mode := .Cold, temperature := .Celcius 17,
       powered := true, sleep := false } : EliosState).as_raw_parts =
      [161, 160, 64, 255, 255] :=
  C4_payload_layout (some .Automatic) .Cold (some (.Celcius 17)) true false _ (by decide)

/-- Claim C5: in every successful construction, the stored fan speed is
`Off` when the mode is `Automatic` or `Dry`, and otherwise defaults to
`Automatic` when omitted and is stored as given when supplied; the
stored sleep flag equals the requested one for the modes `Cold`, `Heat`
and `Automatic` and is `false` for `Dry` and `Fan`. -/
theorem C5_field_normalization (fan_speed : Option EliosFanSpeed) (mode : EliosMode)
    (temperature : Option Temperature) (powered sleep : Bool) (st : EliosState)
    (h : EliosState.new fan_speed mode temperature powered sleep = some st) :
    ((mode = EliosMode.Automatic ∨ mode = EliosMode.Dry) → st.fan_speed = .Off) ∧
    (mode ≠ EliosMode.Automatic → mode ≠ EliosMode.Dry →
      (fan_speed = none → st.fan_speed = .Automatic) ∧
      (∀ f, fan_speed = some f → st.fan_speed = f)) ∧
    ((mode = EliosMode.Cold ∨ mode = EliosMode.Heat ∨ mode = EliosMode.Automatic) →
      st.sleep = sleep) ∧
    ((mode = EliosMode.Dry ∨ mode = EliosMode.Fan) → st.sleep = false) := by
  cases mode <;> rcases temperature with _ | (t | t) <;> rcases fan_speed with _ | f <;>
      (try cases f) <;> simp [EliosState.new] at h <;> simp [← h]

/-- Witness for C5: constructing with mode `Cold`, no fan speed and
`sleep = true` stores fan speed `Automatic` and keeps `sleep = true`. -/
theorem C5_field_normalization_witness :
    ({ fan_speed := .Automatic, mode := .Cold, temperature := .Celcius 20,
       powered := true, sleep := true } : EliosState).fan_speed = .Automatic ∧
    ({ fan_speed := .Automatic, mode := .Cold, temperature := .Celcius 20,
       powered := true, sleep := true } : EliosState).sleep = true :=
  ⟨((C5_field_normalization none .Cold (some (.Celcius 20)) true true _
      (by decide)).2.1 (by decide) (by decide)).1 rfl,
   (C5_field_normalization none .Cold (some (.Celcius 20)) true true _
      (by decide)).2.2.1 (Or.inl rfl)⟩

/-- Claim C6: for a successful non-`Fan` construction, a supplied
Celsius temperature is stored clamped to `[17, 30]` and a supplied
Fahrenheit temperature clamped to `[62, 86]`, to the nearest bound in
its own unit, and the stored unit is the supplied unit. -/
theorem C6_temperature_clamping (fan_speed : Option EliosFanSpeed) (mode : EliosMode)
    (t : Nat) (powered sleep : Bool) (st : EliosState) (hm : mode ≠ EliosMode.Fan) :
    (EliosState.new fan_speed mode (some (.Celcius t)) powered sleep = some st →
      st.temperature = .Celcius (if t < 17 then 17 else if 30 < t then 30 else t)) ∧
    (EliosState.new fan_speed mode (some (.Fahrenheit t)) powered sleep = some st →
      st.temperature = .Fahrenheit (if t < 62 then 62 else if 86 < t then 86 else t)) := by
  have hc : Nat.max (Nat.min t MAX_CELCIUS) MIN_CELCIUS =
      if t < 17 then 17 else if 30 < t then 30 else t := by
    simp only [MAX_CELCIUS, MIN_CELCIUS, Nat.max_def, Nat.min_def]
    split_ifs <;> omega
  have hf : Nat.max (Nat.min t MAX_FAHRENHEIT) MIN_FAHRENHEIT =
      if t < 62 then 62 else if 86 < t then 86 else t := by
    simp only [MAX_FAHRENHEIT, MIN_FAHRENHEIT, Nat.max_def, Nat.min_def]
    split_ifs <;> omega
  constructor <;> intro h <;>
    cases mode <;> rcases fan_speed with _ | f <;> (try cases f) <;>
      simp [EliosState.new] at h <;> simp [← h, hc, hf]

/-- Witness for C6: Celsius 16 is clamped up to 17 (and Fahrenheit 16
would clamp up to 62) in a Cold-mode construction. -/
theorem C6_temperature_clamping_witness :
    ({ fan_speed := .Automatic, mode := .Cold, temperature := .Celcius 17,
       powered := true, sleep := false } : EliosState).temperature = .Celcius 17 :=
  (C6_temperature_clamping (some .Automatic) .Cold 16 true false _ (by decide)).1 (by decide)

/-- Claim C7: for every timing table and every bit sequence (including
the empty one) `encode` returns the leading pulse and gap followed, for
each bit in order, by the one-pulse/one-gap pair if the bit is set and
the zero-pulse/zero-gap pair otherwise; the length is always
`2 + 2 * len(bits)` and the empty sequence encodes to exactly the
leading pair (and `encode`, a total function, never fails). -/
theorem C7_encode_contract (p : InfraredProtocol) (data : List Bool) :
    p.encode data =
      [p.leading_pulse, p.leading_gap] ++
        data.flatMap (fun value =>
          if value then [p.one_pulse, p.one_gap] else [p.zero_pulse, p.zero_gap]) ∧
    (p.encode data).length = 2 + 2 * data.length ∧
    p.encode [] = [p.leading_pulse, p.leading_gap] := by
  have hlen : (data.flatMap (symbolTimings p)).length = 2 * data.length := by
    induction data with
    | nil => rfl
    | cons b bs ih =>
        rw [List.flatMap_cons, List.length_append, ih, List.length_cons]
        cases b <;> simp [symbolTimings] <;> omega
  have h := encode_foldl_acc p data [p.leading_pulse, p.leading_gap]
  refine ⟨h, ?_, rfl⟩
  rw [show (InfraredProtocol.encode p data) = _ from h, List.length_append, hlen]
  rfl

/-- Claim C8 (code bug): the duplicated `checksum` in `src/lib.rs` does
not agree with `EliosState::checksum`.  On the payload of the
Dry/Celsius-30/powered state, `[0xA1, 0x81, 0x4D, 0xFF, 0xFF]`, the
`lib.rs` copy yields `0b01000010` while the elios copy yields
`0b01010010`; consequently the duplicated `State::as_value` returns
`...0b01000010` for that state where `lib.rs`'s own test
`given_dry_30c_on_state_then_value_is_properly_computed` expects
`...0b01010010` (the value the elios copy produces). -/
theorem C8_lib_checksum_divergence :
    Lib.checksum [0b10100001, 0b10000001, 0b01001101, 0b11111111, 0b11111111] = 0b01000010 ∧
    EliosState.checksum [0b10100001, 0b10000001, 0b01001101, 0b11111111, 0b11111111] =
      0b01010010 ∧
    (Lib.State.new none .Dry (some (.Celcius 30)) true false).map Lib.State.as_value =
      some 177576731475778 ∧
    (EliosState.new none .Dry (some (.Celcius 30)) true false).map EliosState.as_value =
      some 177576731475794 :=
  ⟨by decide, by decide, by decide, by decide⟩

/-- Counterexample to claim C9 as stated: `as_fahrenheit` is not the
pure linear conversion on every `u8` degree value — at Celsius 29 the
`u8` multiplication `29 * 9` wraps, so the code returns `Fahrenheit 33`
instead of `Fahrenheit 84 = 29*9/5+32`. -/
theorem C9_conversion_counterexample :
    Temperature.as_fahrenheit (.Celcius 29) ≠ .Fahrenheit (29 * 9 / 5 + 32) := by decide

/-- Claim C9 as amended: the conversions follow the linear formulas
`F = C*9/5+32` and `C = (F-32)*5/9` on the degree ranges where the `u8`
intermediate arithmetic does not wrap (`c ≤ 28` for `as_fahrenheit`,
`32 ≤ f ≤ 83` for `as_celcius`), and each is the identity when the value
is already in the target unit. -/
theorem C9_conversions_amended :
    (∀ c : Nat, c ≤ 28 → Temperature.as_fahrenheit (.Celcius c) = .Fahrenheit (c * 9 / 5 + 32)) ∧
    (∀ f : Nat, 32 ≤ f → f ≤ 83 →
      Temperature.as_celcius (.Fahrenheit f) = .Celcius ((f - 32) * 5 / 9)) ∧
    (∀ f : Nat, Temperature.as_fahrenheit (.Fahrenheit f) = .Fahrenheit f) ∧
    (∀ c : Nat, Temperature.as_celcius (.Celcius c) = .Celcius c) := by
  refine ⟨fun c hc => ?_, fun f hf1 hf2 => ?_, fun f => rfl, fun c => rfl⟩
  · have h9 : c * 9 % 256 = c * 9 := Nat.mod_eq_of_lt (by omega)
    simp [Temperature.as_fahrenheit, h9]
  · have h1 : (f + 256 - 32) % 256 = f - 32 := by omega
    have h2 : (f - 32) * 5 % 256 = (f - 32) * 5 := Nat.mod_eq_of_lt (by omega)
    simp only [Temperature.as_celcius]
    rw [h1, h2]

/-- Witness for the amended C9: Celsius 17 converts to Fahrenheit 62 and
Fahrenheit 62 converts to Celsius 16. -/
theorem C9_conversions_amended_witness :
    Temperature.as_fahrenheit (.Celcius 17) = .Fahrenheit 62 ∧
    Temperature.as_celcius (.Fahrenheit 62) = .Celcius 16 :=
  ⟨C9_conversions_amended.1 17 (by decide),
   C9_conversions_amended.2.1 62 (by decide) (by decide)⟩

/-- Claim C10: every state returned by `EliosState::new` stores a
temperature that is Celsius in `[17, 30]`, Fahrenheit in `[62, 86]`, or
exactly `Celcius 47` (the fan-mode constant, exactly when the mode is
`Fan`); therefore in `as_raw_parts` the wrapping subtractions
`temp - 17` (Celsius) and `temp - 62` (Fahrenheit) equal the plain
subtractions (no underflow), and the resulting offset (at most 30 for
Celsius, at most 24 before the bit-5 flag for Fahrenheit) never
overlaps the fixed bit 6 of the temperature byte. -/
theorem C10_temperature_invariant (fan_speed : Option EliosFanSpeed) (mode : EliosMode)
    (temperature : Option Temperature) (powered sleep : Bool) (st : EliosState)
    (h : EliosState.new fan_speed mode temperature powered sleep = some st) :
    ((mode = EliosMode.Fan ∧ st.temperature = .Celcius 47) ∨
     (∃ t, st.temperature = .Celcius t ∧ 17 ≤ t ∧ t ≤ 30) ∨
     (∃ t, st.temperature = .Fahrenheit t ∧ 62 ≤ t ∧ t ≤ 86)) ∧
    (∀ t, st.temperature = .Celcius t →
       (t + 256 - 17) % 256 = t - 17 ∧ t - 17 ≤ 30 ∧ ((t - 17) &&& 64) = 0) ∧
    (∀ t, st.temperature = .Fahrenheit t →
       (t + 256 - 62) % 256 = t - 62 ∧ t - 62 ≤ 24 ∧ (((t - 62) ||| 32) &&& 64) = 0) := by
  have hshape := new_temperature_shape _ _ _ _ _ _ h
  refine ⟨hshape, fun t ht => ?_, fun t ht => ?_⟩
  · have hb : (17 ≤ t ∧ t ≤ 30) ∨ t = 47 := by
      rcases hshape with ⟨hm, h47⟩ | ⟨u, hu, h1, h2⟩ | ⟨u, hu, h1, h2⟩ <;> rw [ht] at *
      · cases h47; right; rfl
      · cases hu; left; exact ⟨h1, h2⟩
      · cases hu
    refine ⟨by omega, by omega, and_64_eq_zero _ (by omega)⟩
  · have hb : 62 ≤ t ∧ t ≤ 86 := by
      rcases hshape with ⟨hm, h47⟩ | ⟨u, hu, h1, h2⟩ | ⟨u, hu, h1, h2⟩ <;> rw [ht] at *
      · cases h47
      · cases hu
      · cases hu; exact ⟨h1, h2⟩
    refine ⟨by omega, by omega, ?_⟩
    rw [or_32_eq_add _ (by omega)]
    exact and_64_eq_zero _ (by omega)

/-- Witness for C10: applying the invariant to the Cold/Celsius-17
state: the byte-2 offset facts hold at `t = 17`. -/
theorem C10_temperature_invariant_witness :
    (17 + 256 - 17) % 256 = 17 - 17 ∧ 17 - 17 ≤ 30 ∧ ((17 - 17) &&& 64) = 0 :=
  (C10_temperature_invariant (some .Automatic) .Cold (some (.Celcius 17)) true false
    { fan_speed := .Automatic, mode := .Cold, temperature := .Celcius 17,
      powered := true, sleep := false } (by decide)).2.1 17 rfl
